import Mathlib

/-!
Shallow embedding of the item-resolution and pricing engine of the
smart-invoice-generator script (`app.py`), together with its catalog
loader, and proofs about the claims of the specification.

Strings are modelled as `List Char`; the case maps cover the ASCII
range, which is the range Python's `str.lower`/`str.title` act on for
the catalog and item names this program handles.
-/

namespace SmartInvoice

/-- ASCII lower-casing of one character, as Python `str.lower` acts on ASCII:
`A`–`Z` (code points 65–90) map to `a`–`z`, everything else is unchanged. -/
def lowerChar (c : Char) : Char :=
  if 65 ≤ c.toNat ∧ c.toNat ≤ 90 then Char.ofNat (c.toNat + 32) else c

/-- ASCII upper-casing of one character: `a`–`z` (97–122) map to `A`–`Z`. -/
def upperChar (c : Char) : Char :=
  if 97 ≤ c.toNat ∧ c.toNat ≤ 122 then Char.ofNat (c.toNat - 32) else c

/-- ASCII letter test, the cased characters relevant to Python `str.title`
on the ASCII range. -/
def alphaChar (c : Char) : Bool :=
  decide ((65 ≤ c.toNat ∧ c.toNat ≤ 90) ∨ (97 ≤ c.toNat ∧ c.toNat ≤ 122))

/-- Whitespace characters removed by Python `str.strip`: space, tab,
newline, carriage return, vertical tab, form feed. -/
def spaceChar (c : Char) : Bool :=
  decide (c.toNat = 32 ∨ c.toNat = 9 ∨ c.toNat = 10 ∨ c.toNat = 13 ∨
          c.toNat = 11 ∨ c.toNat = 12)

/-- Python `str.lower` on a string (ASCII range). -/
def lowerStr (s : List Char) : List Char := s.map lowerChar

/-- Python `str.strip`: drop leading and trailing whitespace. -/
def stripStr (s : List Char) : List Char :=
  ((s.dropWhile spaceChar).reverse.dropWhile spaceChar).reverse

/-- The normalisation the script applies to names before matching:
`.lower().strip()` (line 143 of `app.py`, and the catalog-key cleaning
of line 52). -/
def normalize (s : List Char) : List Char := stripStr (lowerStr s)

/-- Helper for `title`: the Boolean argument records whether the previous
character was a cased (here: ASCII alphabetic) character. -/
def titleAux : Bool → List Char → List Char
  | _, [] => []
  | prev, c :: rest =>
      (if alphaChar c then (if prev then lowerChar c else upperChar c) else c)
        :: titleAux (alphaChar c) rest

/-- Python `str.title` on the ASCII range: the first letter of each run of
letters is upper-cased, subsequent letters are lower-cased. -/
def title (s : List Char) : List Char := titleAux false s

/-- Decides whether the first list is a leading segment of the second. -/
def leadSeg : List Char → List Char → Bool
  | [], _ => true
  | _ :: _, [] => false
  | a :: as, b :: bs => a == b && leadSeg as bs

/-- Python's substring containment `needle in hay` on strings: `isSub n h`
is true when `n` occurs contiguously inside `h` (the empty string is a
substring of everything). -/
def isSub : List Char → List Char → Bool
  | n, [] => n.isEmpty
  | n, c :: t => leadSeg n (c :: t) || isSub n t

/-- Raw AI-extracted line item, the JSON objects of `raw_data`: each field
may be absent from the object. Quantities and prices are integer-valued
currency amounts. -/
structure RawRow where
  qty : Option Int
  item : Option (List Char)
  unit_price : Option Int
deriving Repr, DecidableEq

/-- One entry of `clean_list` (line 158 of `app.py`). -/
structure CleanRow where
  qty : Int
  item : List Char
  line_total : Int
deriving Repr, DecidableEq

/-- The in-memory product database `product_db`: an insertion-ordered map
from normalised item name to unit price, modelled as the ordered list of
its (key, price) pairs with distinct keys. -/
abbrev Catalog := List (List Char × Int)

/-- Python `product_db.get(ai_name, 0)` (line 145): the price stored under
the key, or `0` when the key is absent. -/
def lookupPrice (db : Catalog) (k : List Char) : Int :=
  match db.find? (fun e => decide (e.1 = k)) with
  | some e => e.2
  | none => 0

/-- The fuzzy-match condition of line 150: `ai_name in db_name or
db_name in ai_name`. -/
def fuzzyMatch (ai : List Char) (dbName : List Char) : Bool :=
  isSub ai dbName || isSub dbName ai

/-- The fuzzy-match scan of lines 149–153: the first catalog entry, in the
catalog's own order, whose name matches the normalised raw name in either
substring direction. -/
def firstFuzzy (db : Catalog) (ai : List Char) : Option (List Char × Int) :=
  db.find? (fun e => fuzzyMatch ai e.1)

/-- Lines 143–153 of `app.py` for one row: compute the resolved price and
the row as left after the loop body's mutation. The exact lookup is used
when it yields a nonzero price; otherwise the fuzzy scan runs and, on a
hit, overwrites the row's `item` field with the title-cased catalog name. -/
def resolveStep (db : Catalog) (row : RawRow) : Int × RawRow :=
  let ai := normalize ((row.item).getD [])
  let price0 := lookupPrice db ai
  if price0 = 0 then
    match firstFuzzy db ai with
    | some e => (e.2, { row with item := some (title e.1) })
    | none => (0, row)
  else (price0, row)

/-- The price the loop resolves for a row. -/
def resolvedPrice (db : Catalog) (row : RawRow) : Int := (resolveStep db row).1

/-- The state of the raw row after the loop body (line 152 may have
overwritten its `item` field in place). -/
def mutatedRow (db : Catalog) (row : RawRow) : RawRow := (resolveStep db row).2

/-- Lines 143–158 for one row: the emitted `clean_list` entry and the
mutated raw row. Line 158 evaluates `row.get('item').title()` with no
default, so a row whose `item` field is still absent after the loop body
raises `AttributeError` (modelled as `none`), which propagates to the
batch-level handler. -/
def resolveRow (db : Catalog) (row : RawRow) : Option (CleanRow × RawRow) :=
  match (mutatedRow db row).item with
  | none => none
  | some s =>
      some ({ qty := row.qty.getD 1
              item := title s
              line_total := row.qty.getD 1 * resolvedPrice db row },
            mutatedRow db row)

/-- The resolution loop over `raw_data` (lines 138–158): builds
`clean_list`, accumulates `final_total`, and leaves the mutated raw rows.
An exception on any row aborts the whole batch (the `try` of line 121
wraps the entire loop), so the result is `none` and no invoice is
produced. -/
def resolveList (db : Catalog) : List RawRow → Option (List CleanRow × Int × List RawRow)
  | [] => some ([], 0, [])
  | r :: rs =>
    match resolveRow db r with
    | none => none
    | some (c, r2) =>
      match resolveList db rs with
      | none => none
      | some (cs, t, rs2) => some (c :: cs, c.line_total + t, r2 :: rs2)

/-- The invoice the script displays: `clean_list` plus `final_total`. -/
structure Invoice where
  lines : List CleanRow
  grandTotal : Int
deriving Repr, DecidableEq

/-- The whole resolution pass: on success, the invoice and the raw-row list
as left after the pass's in-place mutations; `none` when an exception
aborted the batch. -/
def resolveInvoice (db : Catalog) (rows : List RawRow) : Option (Invoice × List RawRow) :=
  match resolveList db rows with
  | none => none
  | some (cs, t, rs2) => some ({ lines := cs, grandTotal := t }, rs2)

/-- Parse of one price cell after the comma-stripping of line 54: a
nonempty all-digit string parses to its value, anything else fails
(models `astype(float)` on integer-valued price strings; a
non-numeric cell raises). -/
def parseDigits : List Char → Option Nat
  | [] => none
  | cs =>
    if cs.all (fun c => decide (48 ≤ c.toNat ∧ c.toNat ≤ 57)) then
      some (cs.foldl (fun acc c => 10 * acc + (c.toNat - 48)) 0)
    else none

/-- Price parsing of line 54: strip thousands separators, then parse the
digits. -/
def parsePrice (s : List Char) : Option Int :=
  (parseDigits (s.filter (fun c => !decide (c = ',')))).map Int.ofNat

/-- The catalog load of lines 49–60: the whole column conversion runs
inside one `try`, so if ANY row's price fails to parse the exception is
caught and `product_db` is set to the empty dict; only when every row
parses does the load produce the cleaned (normalised-name, price)
pairs. -/
def loadCatalog (src : List (List Char × List Char)) : Catalog :=
  if src.all (fun e => (parsePrice e.2).isSome) then
    src.map (fun e => (normalize e.1, (parsePrice e.2).getD 0))
  else []

/-! Character-level lemmas. -/

theorem toNat_ofNat_small {n : Nat} (h : n < 55296) : (Char.ofNat n).toNat = n := by
  rw [Char.ofNat, dif_pos (Or.inl h)]
  rfl

theorem lowerChar_toNat_of_upper {c : Char} (h : 65 ≤ c.toNat ∧ c.toNat ≤ 90) :
    (lowerChar c).toNat = c.toNat + 32 := by
  rw [lowerChar, if_pos h, toNat_ofNat_small (by omega)]

theorem upperChar_toNat_of_lower {c : Char} (h : 97 ≤ c.toNat ∧ c.toNat ≤ 122) :
    (upperChar c).toNat = c.toNat - 32 := by
  rw [upperChar, if_pos h, toNat_ofNat_small (by omega)]

theorem lowerChar_eq_self {c : Char} (h : ¬(65 ≤ c.toNat ∧ c.toNat ≤ 90)) :
    lowerChar c = c := by
  rw [lowerChar, if_neg h]

theorem upperChar_eq_self {c : Char} (h : ¬(97 ≤ c.toNat ∧ c.toNat ≤ 122)) :
    upperChar c = c := by
  rw [upperChar, if_neg h]

theorem lowerChar_idem (c : Char) : lowerChar (lowerChar c) = lowerChar c := by
  by_cases h : 65 ≤ c.toNat ∧ c.toNat ≤ 90
  · apply lowerChar_eq_self
    rw [lowerChar_toNat_of_upper h]
    omega
  · rw [lowerChar_eq_self h, lowerChar_eq_self h]

theorem upperChar_idem (c : Char) : upperChar (upperChar c) = upperChar c := by
  by_cases h : 97 ≤ c.toNat ∧ c.toNat ≤ 122
  · apply upperChar_eq_self
    rw [upperChar_toNat_of_lower h]
    omega
  · rw [upperChar_eq_self h, upperChar_eq_self h]

theorem alphaChar_lowerChar (c : Char) : alphaChar (lowerChar c) = alphaChar c := by
  by_cases h : 65 ≤ c.toNat ∧ c.toNat ≤ 90
  · have ht := lowerChar_toNat_of_upper h
    simp only [alphaChar, ht]
    simp only [decide_eq_decide]
    omega
  · rw [lowerChar, if_neg h]

theorem alphaChar_upperChar (c : Char) : alphaChar (upperChar c) = alphaChar c := by
  by_cases h : 97 ≤ c.toNat ∧ c.toNat ≤ 122
  · have ht := upperChar_toNat_of_lower h
    simp only [alphaChar, ht]
    simp only [decide_eq_decide]
    omega
  · rw [upperChar, if_neg h]

/-- The per-character transform `title` applies, as a function of the
previous-character-was-a-letter flag. -/
def titleChar (b : Bool) (c : Char) : Char :=
  if alphaChar c then (if b then lowerChar c else upperChar c) else c

theorem titleAux_as_titleChar (b : Bool) (c : Char) (rest : List Char) :
    titleAux b (c :: rest) = titleChar b c :: titleAux (alphaChar c) rest := rfl

theorem alphaChar_titleChar (b : Bool) (c : Char) :
    alphaChar (titleChar b c) = alphaChar c := by
  unfold titleChar
  by_cases h : alphaChar c
  · rw [if_pos h]
    cases b
    · simp only [Bool.false_eq_true, if_false, alphaChar_upperChar]
    · simp only [if_true, alphaChar_lowerChar]
  · rw [if_neg h]

theorem titleChar_titleChar (b : Bool) (c : Char) :
    titleChar b (titleChar b c) = titleChar b c := by
  by_cases h : alphaChar c = true
  · cases b
    · simp [titleChar, h, alphaChar_upperChar, upperChar_idem]
    · simp [titleChar, h, alphaChar_lowerChar, lowerChar_idem]
  · simp [titleChar, h]

theorem titleAux_idem (s : List Char) : ∀ b, titleAux b (titleAux b s) = titleAux b s := by
  induction s with
  | nil => intro b; rfl
  | cons c rest ih =>
      intro b
      rw [titleAux_as_titleChar, titleAux_as_titleChar, titleChar_titleChar,
          alphaChar_titleChar, ih]

theorem title_idem (s : List Char) : title (title s) = title s := titleAux_idem s false

/-! Structural lemmas about the resolver. -/

theorem resolveStep_cases (db : Catalog) (row : RawRow) :
    resolveStep db row =
      (if lookupPrice db (normalize ((row.item).getD [])) = 0 then
        match firstFuzzy db (normalize ((row.item).getD [])) with
        | some e => (e.2, { row with item := some (title e.1) })
        | none => (0, row)
      else (lookupPrice db (normalize ((row.item).getD [])), row)) := rfl

theorem resolveRow_eq_some (db : Catalog) (row : RawRow) (c : CleanRow) (r2 : RawRow)
    (h : resolveRow db row = some (c, r2)) :
    r2 = mutatedRow db row ∧ c.qty = row.qty.getD 1 ∧
    c.line_total = row.qty.getD 1 * resolvedPrice db row ∧
    ∃ s, (mutatedRow db row).item = some s ∧ c.item = title s := by
  unfold resolveRow at h
  cases hm : (mutatedRow db row).item with
  | none => rw [hm] at h; exact absurd h (by simp)
  | some s =>
      rw [hm] at h
      simp only [Option.some.injEq, Prod.mk.injEq] at h
      obtain ⟨hc, hr⟩ := h
      refine ⟨hr.symm, ?_, ?_, s, rfl, ?_⟩
      · rw [← hc]
      · rw [← hc]
      · rw [← hc]

theorem mutatedRow_item_isSome (db : Catalog) (row : RawRow) (h : (row.item).isSome) :
    ((mutatedRow db row).item).isSome := by
  unfold mutatedRow resolveStep
  by_cases h0 : lookupPrice db (normalize ((row.item).getD [])) = 0
  · rw [if_pos h0]
    cases firstFuzzy db (normalize ((row.item).getD [])) with
    | none => exact h
    | some e => rfl
  · rw [if_neg h0]
    exact h

theorem resolveRow_isSome (db : Catalog) (row : RawRow) (h : (row.item).isSome) :
    (resolveRow db row).isSome := by
  unfold resolveRow
  cases hm : (mutatedRow db row).item with
  | none =>
      have := mutatedRow_item_isSome db row h
      rw [hm] at this
      exact absurd this (by simp)
  | some s => rfl

theorem resolveList_spec (db : Catalog) :
    ∀ (rows : List RawRow) (cs : List CleanRow) (t : Int) (rs2 : List RawRow),
      resolveList db rows = some (cs, t, rs2) →
      t = (cs.map CleanRow.line_total).sum ∧
      cs.length = rows.length ∧
      rs2 = rows.map (mutatedRow db) ∧
      ∀ i (hr : i < rows.length) (hc : i < cs.length),
        resolveRow db (rows.get ⟨i, hr⟩)
          = some (cs.get ⟨i, hc⟩, mutatedRow db (rows.get ⟨i, hr⟩)) := by
  intro rows
  induction rows with
  | nil =>
      intro cs t rs2 h
      simp only [resolveList, Option.some.injEq, Prod.mk.injEq] at h
      obtain ⟨h1, h2, h3⟩ := h
      subst h1; subst h2; subst h3
      exact ⟨rfl, rfl, rfl, fun i hr _ => absurd hr (Nat.not_lt_zero i)⟩
  | cons r rs ih =>
      intro cs t rs2 h
      unfold resolveList at h
      cases h1 : resolveRow db r with
      | none => rw [h1] at h; exact absurd h (by simp)
      | some p =>
          obtain ⟨c, r2⟩ := p
          rw [h1] at h
          cases h2 : resolveList db rs with
          | none => rw [h2] at h; exact absurd h (by simp)
          | some q =>
              obtain ⟨cs', t', rs2'⟩ := q
              rw [h2] at h
              simp only [Option.some.injEq, Prod.mk.injEq] at h
              obtain ⟨hcs, ht, hrs⟩ := h
              obtain ⟨ihsum, ihlen, ihmap, ihget⟩ := ih cs' t' rs2' h2
              obtain ⟨hr2, _, _, _⟩ := resolveRow_eq_some db r c r2 h1
              subst hcs; subst ht; subst hrs; subst hr2
              refine ⟨by simp [ihsum], by simp [ihlen], by simp [ihmap], ?_⟩
              intro i hr hc
              cases i with
              | zero => simpa using h1
              | succ j =>
                  exact ihget j (Nat.lt_of_succ_lt_succ hr) (Nat.lt_of_succ_lt_succ hc)

theorem resolvedPrice_up_irrel (db : Catalog) (q : Option Int) (it : Option (List Char))
    (u p : Option Int) :
    resolvedPrice db ⟨q, it, p⟩ = resolvedPrice db ⟨q, it, u⟩ := by
  simp only [resolvedPrice, resolveStep]
  by_cases h0 : lookupPrice db (normalize (it.getD [])) = 0
  · rw [if_pos h0, if_pos h0]
    cases firstFuzzy db (normalize (it.getD [])) <;> rfl
  · rw [if_neg h0, if_neg h0]

/-! Claim theorems. -/

/-- Claim C1, counterexample: with an empty catalog and the raw item
(qty 3, item "Local Candy", stated unit price 200) the program resolves
the price to 0 and the line total to 0 — not to the stated 200 with line
total 600 as the claim demands — because the resolution loop never reads
the `unit_price` field of a raw item. -/
theorem C1_counterexample :
    resolveInvoice []
        [{ qty := some 3, item := some ("Local Candy".data), unit_price := some 200 }]
      = some ({ lines := [{ qty := 3, item := ("Local Candy".data), line_total := 0 }],
                grandTotal := 0 },
              [{ qty := some 3, item := some ("Local Candy".data), unit_price := some 200 }])
    ∧ (0 : Int) ≠ 600 := by
  exact ⟨by decide, by decide⟩

/-- Claim C1 as amended: there is no stated-price fallback. When the exact
lookup yields price zero and the substring scan finds no match, the
resolved unit price is 0 — the raw item's `unit_price` field is ignored
entirely (the resolved price does not depend on it). -/
theorem C1_no_stated_price_fallback (db : Catalog) (row : RawRow)
    (h1 : lookupPrice db (normalize ((row.item).getD [])) = 0)
    (h2 : firstFuzzy db (normalize ((row.item).getD [])) = none) :
    resolvedPrice db row = 0 ∧
    ∀ p, resolvedPrice db { row with unit_price := p } = resolvedPrice db row := by
  constructor
  · simp [resolvedPrice, resolveStep, h1, h2]
  · intro p
    obtain ⟨q, it, u⟩ := row
    exact resolvedPrice_up_irrel db q it u p

/-- Claim C1 witness: the amended theorem applied to the empty catalog and
the "Local Candy" raw item of the claim. -/
theorem C1_witness :
    resolvedPrice []
      { qty := some 3, item := some ("Local Candy".data), unit_price := some 200 } = 0 :=
  (C1_no_stated_price_fallback []
    { qty := some 3, item := some ("Local Candy".data), unit_price := some 200 }
    (by decide) (by decide)).1

/-- Claim C2: resolution is first-success-wins. If the exact lookup of the
normalised raw name yields a nonzero price, that price is used and the row
is left untouched (no substring scan); if the exact lookup yields zero,
the first catalog entry matching in either substring direction supplies
both the price and (via the in-place overwrite) the canonical name. -/
theorem C2_resolution_order (db : Catalog) (row : RawRow) (s : List Char)
    (h : row.item = some s) :
    (lookupPrice db (normalize s) ≠ 0 →
        resolveStep db row = (lookupPrice db (normalize s), row)) ∧
    (lookupPrice db (normalize s) = 0 → ∀ e, firstFuzzy db (normalize s) = some e →
        resolveStep db row = (e.2, { row with item := some (title e.1) })) := by
  have hg : (row.item).getD [] = s := by rw [h]; rfl
  constructor
  · intro hne
    simp [resolveStep, hg, hne]
  · intro h0 e he
    simp [resolveStep, hg, h0, he]

/-- Claim C2 witness: the exact-match example (catalog sugar ↦ 1500, raw
item "Sugar") takes the exact branch with no scan, and the substring
example (catalog "indomie supreme" ↦ 11500, raw item "Indomie") adopts the
catalog entry's price and title-cased name. -/
theorem C2_witness :
    resolveStep [(("sugar".data), (1500 : Int))]
        { qty := some 2, item := some ("Sugar".data), unit_price := none }
      = (1500, { qty := some 2, item := some ("Sugar".data), unit_price := none }) ∧
    resolveStep [(("indomie supreme".data), (11500 : Int))]
        { qty := some 1, item := some ("Indomie".data), unit_price := none }
      = (11500, { qty := some 1, item := some ("Indomie Supreme".data), unit_price := none }) := by
  constructor
  · exact (C2_resolution_order [(("sugar".data), (1500 : Int))]
      { qty := some 2, item := some ("Sugar".data), unit_price := none }
      ("Sugar".data) rfl).1 (by decide)
  · exact (C2_resolution_order [(("indomie supreme".data), (11500 : Int))]
      { qty := some 1, item := some ("Indomie".data), unit_price := none }
      ("Indomie".data) rfl).2 (by decide) (("indomie supreme".data), (11500 : Int)) (by decide)

theorem resolveList_isSome (db : Catalog) (rows : List RawRow)
    (h : ∀ r ∈ rows, (RawRow.item r).isSome = true) :
    (resolveList db rows).isSome = true := by
  induction rows with
  | nil => rfl
  | cons r rs ih =>
      have h1 := resolveRow_isSome db r (h r (by simp))
      unfold resolveList
      cases hr : resolveRow db r with
      | none => rw [hr] at h1; exact absurd h1 (by simp)
      | some p =>
          obtain ⟨c, r2⟩ := p
          have h2 := ih (fun x hx => h x (by simp [hx]))
          cases hl : resolveList db rs with
          | none => rw [hl] at h2; exact absurd h2 (by simp)
          | some q => obtain ⟨cs, t, rs2⟩ := q; rfl

/-- Claim C3, counterexample: a batch of two raw items in which the first
is well-formed ("milk") and the second is missing its `item` field
resolves, against the empty catalog, to no invoice at all: the
`AttributeError` from `row.get('item').title()` propagates to the handler
wrapping the whole loop, aborting the batch instead of being converted to
a per-line default. -/
theorem C3_counterexample :
    resolveInvoice []
      [{ qty := some 1, item := some ("milk".data), unit_price := none },
       { qty := some 1, item := none, unit_price := none }] = none := by
  decide

/-- Claim C3 as amended: resolution is total and exception-free over all
raw sequences in which every item carries its name field (including empty
names and the empty sequence); a raw item missing its name field entirely
can raise, and the exception aborts the whole batch — it is caught only by
the boundary handler around the entire loop, not converted to a per-line
default. -/
theorem C3_total_on_named_rows (db : Catalog) (rows : List RawRow)
    (h : ∀ r ∈ rows, (RawRow.item r).isSome = true) :
    (resolveInvoice db rows).isSome = true := by
  have h1 := resolveList_isSome db rows h
  unfold resolveInvoice
  cases hl : resolveList db rows with
  | none => rw [hl] at h1; exact absurd h1 (by simp)
  | some q => obtain ⟨cs, t, rs2⟩ := q; rfl

/-- Claim C3 witness: the amended theorem applied to a two-row batch with
names present (one of them empty) against the empty catalog. -/
theorem C3_witness :
    (resolveInvoice []
      [{ qty := some 1, item := some ("milk".data), unit_price := none },
       { qty := some 2, item := some [], unit_price := none }]).isSome = true :=
  C3_total_on_named_rows []
    [{ qty := some 1, item := some ("milk".data), unit_price := none },
     { qty := some 2, item := some [], unit_price := none }]
    (by decide)

/-- Claim C4: every invoice the pass produces has `grandTotal` equal to
the exact sum of its lines' `line_total` values, with one line per raw
row, each line's total equal to its quantity times the resolved unit
price; the empty input yields the invoice with no lines and total zero. -/
theorem C4_grand_total_correct (db : Catalog) :
    resolveInvoice db [] = some ({ lines := [], grandTotal := 0 }, []) ∧
    ∀ rows inv rs2, resolveInvoice db rows = some (inv, rs2) →
      inv.grandTotal = (inv.lines.map CleanRow.line_total).sum ∧
      inv.lines.length = rows.length ∧
      ∀ i (hc : i < inv.lines.length) (hr : i < rows.length),
        (inv.lines.get ⟨i, hc⟩).line_total
          = (inv.lines.get ⟨i, hc⟩).qty * resolvedPrice db (rows.get ⟨i, hr⟩) := by
  refine ⟨rfl, ?_⟩
  intro rows inv rs2 h
  unfold resolveInvoice at h
  cases hl : resolveList db rows with
  | none => rw [hl] at h; exact absurd h (by simp)
  | some q =>
      obtain ⟨cs, t, rs2'⟩ := q
      rw [hl] at h
      simp only [Option.some.injEq, Prod.mk.injEq] at h
      obtain ⟨hinv, hrs⟩ := h
      obtain ⟨hsum, hlen, hmap, hget⟩ := resolveList_spec db rows cs t rs2' hl
      subst hinv
      refine ⟨hsum, hlen, ?_⟩
      intro i hc hr
      obtain ⟨_, hqty, hlt, _⟩ := resolveRow_eq_some db _ _ _ (hget i hr hc)
      rw [hlt, hqty]

/-- Concrete catalog for the claim C4 example: the spec's three prices. -/
def exDb : Catalog :=
  [(("bread".data), (500 : Int)), (("sugar".data), (1500 : Int)),
   (("indomie supreme".data), (11500 : Int))]

/-- Concrete raw rows for the claim C4 example: quantities 2, 1, 3. -/
def exRows : List RawRow :=
  [{ qty := some 2, item := some ("bread".data), unit_price := none },
   { qty := some 1, item := some ("sugar".data), unit_price := none },
   { qty := some 3, item := some ("indomie supreme".data), unit_price := none }]

/-- The invoice the claim C4 example resolves to: line totals 1000, 1500,
34500, grand total 37000. -/
def exInv : Invoice :=
  { lines := [{ qty := 2, item := ("Bread".data), line_total := 1000 },
              { qty := 1, item := ("Sugar".data), line_total := 1500 },
              { qty := 3, item := ("Indomie Supreme".data), line_total := 34500 }],
    grandTotal := 37000 }

/-- Claim C4 witness: the spec's three-line example (500·2, 1500·1,
11500·3) resolves to line totals 1000, 1500, 34500 and grand total 37000,
which the theorem certifies equals the re-summed line totals. -/
theorem C4_witness :
    resolveInvoice exDb exRows = some (exInv, exRows) ∧
    exInv.grandTotal = (exInv.lines.map CleanRow.line_total).sum := by
  refine ⟨by decide, ?_⟩
  exact ((C4_grand_total_correct exDb).2 exRows exInv exRows (by decide)).1

/-- Claim C5: a raw line item (name present, no stated price) for which
the exact lookup yields zero and the substring scan finds nothing is still
emitted as a resolved line, with unit price 0 and line total 0 and the raw
row untouched; moreover whenever the pass produces an invoice it has
exactly one resolved line per raw input item. -/
theorem C5_zero_default_line_kept (db : Catalog) (row : RawRow) (s : List Char)
    (h1 : row.item = some s) (_h2 : row.unit_price = none)
    (h3 : lookupPrice db (normalize s) = 0)
    (h4 : firstFuzzy db (normalize s) = none) :
    resolveRow db row
      = some ({ qty := row.qty.getD 1, item := title s, line_total := 0 }, row) ∧
    ∀ rows out, resolveInvoice db rows = some out → (Invoice.lines out.1).length = rows.length := by
  have hg : (row.item).getD [] = s := by rw [h1]; rfl
  have hstep : resolveStep db row = (0, row) := by simp [resolveStep, hg, h3, h4]
  have hm : mutatedRow db row = row := by rw [mutatedRow, hstep]
  have hp : resolvedPrice db row = 0 := by rw [resolvedPrice, hstep]
  constructor
  · simp only [resolveRow, hm, h1, hp]
    simp
  · intro rows out h
    unfold resolveInvoice at h
    cases hl : resolveList db rows with
    | none => rw [hl] at h; exact absurd h (by simp)
    | some q =>
        obtain ⟨cs, t, rs2⟩ := q
        rw [hl] at h
        obtain ⟨_, hlen, _, _⟩ := resolveList_spec db rows cs t rs2 hl
        simp only [Option.some.injEq] at h
        rw [← h]
        exact hlen

/-- Claim C5 witness: the "Mystery" item of the claim against the empty
catalog is emitted with price 0 and line total 0, not dropped. -/
theorem C5_witness :
    resolveRow [] { qty := some 1, item := some ("Mystery".data), unit_price := none }
      = some ({ qty := 1, item := ("Mystery".data), line_total := 0 },
              { qty := some 1, item := some ("Mystery".data), unit_price := none }) :=
  (C5_zero_default_line_kept []
    { qty := some 1, item := some ("Mystery".data), unit_price := none }
    ("Mystery".data) rfl rfl (by decide) rfl).1

theorem resolveStep_qty_irrel (db : Catalog) (q q2 : Option Int) (it : Option (List Char))
    (u : Option Int) :
    (resolveStep db ⟨q2, it, u⟩).1 = (resolveStep db ⟨q, it, u⟩).1 ∧
    ((resolveStep db ⟨q2, it, u⟩).2).item = ((resolveStep db ⟨q, it, u⟩).2).item := by
  simp only [resolveStep]
  by_cases h0 : lookupPrice db (normalize (it.getD [])) = 0
  · rw [if_pos h0, if_pos h0]
    cases firstFuzzy db (normalize (it.getD [])) <;> exact ⟨rfl, rfl⟩
  · rw [if_neg h0, if_neg h0]
    exact ⟨rfl, rfl⟩

/-- Claim C6, counterexample: against the catalog (sugar ↦ 1500), the raw
item with explicit quantity 0 resolves with quantity 0 and line total 0 —
the non-positive quantity is carried over as-is, not defaulted to 1 as the
claim demands (`row.get('qty', 1)` defaults only when the field is
absent). -/
theorem C6_counterexample :
    resolveRow [(("sugar".data), (1500 : Int))]
        { qty := some 0, item := some ("sugar".data), unit_price := none }
      = some ({ qty := 0, item := ("Sugar".data), line_total := 0 },
              { qty := some 0, item := some ("sugar".data), unit_price := none })
    ∧ (0 : Int) ≠ 1 :=
  ⟨by decide, by decide⟩

/-- Claim C6 as amended: only a missing quantity field defaults to 1; a
present quantity, zero or negative included, is carried over verbatim.
Quantity is never used as a matching key: neither the resolved price nor
the name mutation depends on it. -/
theorem C6_qty_default_only_when_missing (db : Catalog) (row : RawRow) :
    (∀ q2, resolvedPrice db { row with qty := q2 } = resolvedPrice db row ∧
           (mutatedRow db { row with qty := q2 }).item = (mutatedRow db row).item) ∧
    ∀ c r2, resolveRow db row = some (c, r2) →
      (row.qty = none → c.qty = 1) ∧ ∀ q, row.qty = some q → c.qty = q := by
  constructor
  · intro q2
    obtain ⟨q, it, u⟩ := row
    exact resolveStep_qty_irrel db q q2 it u
  · intro c r2 hr
    obtain ⟨_, hqty, _, _⟩ := resolveRow_eq_some db row c r2 hr
    constructor
    · intro hn
      rw [hqty, hn]
      rfl
    · intro q hq
      rw [hqty, hq]
      rfl

/-- Claim C6 witness: a raw sugar row with its quantity field absent
resolves with quantity 1. -/
theorem C6_witness :
    resolveRow [(("sugar".data), (1500 : Int))]
        { qty := none, item := some ("sugar".data), unit_price := none }
      = some ({ qty := 1, item := ("Sugar".data), line_total := 1500 },
              { qty := none, item := some ("sugar".data), unit_price := none }) ∧
    (({ qty := 1, item := ("Sugar".data), line_total := 1500 } : CleanRow)).qty = 1 := by
  refine ⟨by decide, ?_⟩
  exact ((C6_qty_default_only_when_missing [(("sugar".data), (1500 : Int))]
    { qty := none, item := some ("sugar".data), unit_price := none }).2
    { qty := 1, item := ("Sugar".data), line_total := 1500 }
    { qty := none, item := some ("sugar".data), unit_price := none }
    (by decide)).1 rfl

/-- Claim C7, counterexample: two failures of the claimed display-name
policy. An exact match on the raw item " SUGAR " (catalog sugar ↦ 1500)
emits the title-cased raw name " Sugar " with its whitespace intact, not
the catalog's canonical name "Sugar"; and a raw item whose name is the
empty string, against the empty catalog, emits the empty display name, not
the literal "Unknown" marker (the marker appears only in the receipt
renderer, never in the resolved lines). -/
theorem C7_counterexample :
    resolveRow [(("sugar".data), (1500 : Int))]
        { qty := some 2, item := some (" SUGAR ".data), unit_price := none }
      = some ({ qty := 2, item := (" Sugar ".data), line_total := 3000 },
              { qty := some 2, item := some (" SUGAR ".data), unit_price := none }) ∧
    (" Sugar ".data) ≠ ("Sugar".data) ∧
    resolveRow [] { qty := some 1, item := some [], unit_price := none }
      = some ({ qty := 1, item := [], line_total := 0 },
              { qty := some 1, item := some [], unit_price := none }) ∧
    ([] : List Char) ≠ ("Unknown".data) :=
  ⟨by decide, by decide, by decide, by decide⟩

/-- Claim C7 as amended: when the substring scan resolved the item, the
display name is the catalog's canonical name title-cased; otherwise (exact
match or no match at all) the display name is the raw name title-cased
verbatim — whitespace preserved, possibly empty, with no "Unknown"
marker. -/
theorem C7_display_name_policy (db : Catalog) (row : RawRow) (s : List Char)
    (h : row.item = some s) (c : CleanRow) (r2 : RawRow)
    (hr : resolveRow db row = some (c, r2)) :
    (lookupPrice db (normalize s) = 0 →
      ∀ e, firstFuzzy db (normalize s) = some e → c.item = title e.1) ∧
    (lookupPrice db (normalize s) ≠ 0 → c.item = title s) ∧
    (firstFuzzy db (normalize s) = none → c.item = title s) := by
  have hg : (row.item).getD [] = s := by rw [h]; rfl
  obtain ⟨_, _, _, s2, hs2, hcitem⟩ := resolveRow_eq_some db row c r2 hr
  refine ⟨?_, ?_, ?_⟩
  · intro h0 e he
    have hstep : resolveStep db row = (e.2, { row with item := some (title e.1) }) := by
      simp [resolveStep, hg, h0, he]
    rw [mutatedRow, hstep] at hs2
    simp only [Option.some.injEq] at hs2
    rw [hcitem, ← hs2, title_idem]
  · intro hne
    have hstep : resolveStep db row = (lookupPrice db (normalize s), row) := by
      simp [resolveStep, hg, hne]
    rw [mutatedRow, hstep, h] at hs2
    simp only [Option.some.injEq] at hs2
    rw [hcitem, ← hs2]
  · intro hnone
    by_cases h0 : lookupPrice db (normalize s) = 0
    · have hstep : resolveStep db row = (0, row) := by
        simp [resolveStep, hg, h0, hnone]
      rw [mutatedRow, hstep, h] at hs2
      simp only [Option.some.injEq] at hs2
      rw [hcitem, ← hs2]
    · have hstep : resolveStep db row = (lookupPrice db (normalize s), row) := by
        simp [resolveStep, hg, h0]
      rw [mutatedRow, hstep, h] at hs2
      simp only [Option.some.injEq] at hs2
      rw [hcitem, ← hs2]

/-- Claim C7 witness: in the substring example (catalog
"indomie supreme" ↦ 11500, raw "Indomie") the emitted display name is the
title-cased catalog canonical name. -/
theorem C7_witness :
    ("Indomie Supreme".data) = title ("indomie supreme".data) :=
  (C7_display_name_policy [(("indomie supreme".data), (11500 : Int))]
    { qty := some 1, item := some ("Indomie".data), unit_price := none }
    ("Indomie".data) rfl
    { qty := 1, item := ("Indomie Supreme".data), line_total := 11500 }
    { qty := some 1, item := some ("Indomie Supreme".data), unit_price := none }
    (by decide)).1 (by decide) (("indomie supreme".data), (11500 : Int)) (by decide)

/-- Claim C8, counterexample: the pass mutates its raw input, and that
hidden mutation changes a repeated run's output. Against the catalog
(b ↦ 9, ab ↦ 0), the raw item "a" first resolves by substring to the
zero-priced entry "ab", overwriting the raw name with "Ab"; running the
pass again on the mutated raw rows then resolves "Ab" to the entry "b"
with price 9, a different invoice. -/
theorem C8_counterexample :
    resolveInvoice [(("b".data), (9 : Int)), (("ab".data), (0 : Int))]
        [{ qty := some 1, item := some ("a".data), unit_price := none }]
      = some ({ lines := [{ qty := 1, item := ("Ab".data), line_total := 0 }], grandTotal := 0 },
              [{ qty := some 1, item := some ("Ab".data), unit_price := none }]) ∧
    resolveInvoice [(("b".data), (9 : Int)), (("ab".data), (0 : Int))]
        [{ qty := some 1, item := some ("Ab".data), unit_price := none }]
      = some ({ lines := [{ qty := 1, item := ("B".data), line_total := 9 }], grandTotal := 9 },
              [{ qty := some 1, item := some ("B".data), unit_price := none }]) ∧
    ({ lines := [{ qty := 1, item := ("Ab".data), line_total := 0 }], grandTotal := 0 } : Invoice)
      ≠ { lines := [{ qty := 1, item := ("B".data), line_total := 9 }], grandTotal := 9 } :=
  ⟨by decide, by decide, by decide⟩

/-- Claim C8 as amended: the resolution computation is a deterministic
pure function of the raw item values and the catalog — equal raw value
sequences resolve to identical results, with no randomness — but it
mutates the raw sequence in place, so re-resolving the same (now mutated)
raw objects is not guaranteed to reproduce the invoice. -/
theorem C8_value_determinism (db : Catalog) (rows1 rows2 : List RawRow)
    (h : rows1 = rows2) :
    resolveInvoice db rows1 = resolveInvoice db rows2 := by
  rw [h]

/-- Claim C8 witness: the determinism theorem applied at the substring
example. -/
theorem C8_witness :
    resolveInvoice [(("indomie supreme".data), (11500 : Int))]
        [{ qty := some 1, item := some ("Indomie".data), unit_price := none }]
      = resolveInvoice [(("indomie supreme".data), (11500 : Int))]
        [{ qty := some 1, item := some ("Indomie".data), unit_price := none }] :=
  C8_value_determinism [(("indomie supreme".data), (11500 : Int))]
    [{ qty := some 1, item := some ("Indomie".data), unit_price := none }]
    [{ qty := some 1, item := some ("Indomie".data), unit_price := none }] rfl

/-- Claim C9, counterexample: loading the two-row source
(sugar, "1,500"), (salt, "abc") yields the empty catalog, even though the
sugar row's price parses perfectly well: the unparsable "abc" makes the
whole-column conversion raise, the generic handler catches it, and
`product_db` is set to the empty dict — no per-row skipping, no skip
count, loading does not continue for the remaining rows. -/
theorem C9_counterexample :
    parsePrice ("1,500".data) = some 1500 ∧
    loadCatalog [(("sugar".data), ("1,500".data)), (("salt".data), ("abc".data))] = [] :=
  ⟨by decide, by decide⟩

/-- Claim C9 as amended: one unparsable price aborts the whole load — the
catalog becomes empty (all rows lost, parsable ones included) — and only a
source whose every price parses loads at all, as the cleaned
(normalised name, price) pairs. -/
theorem C9_bad_row_empties_catalog (src : List (List Char × List Char)) :
    ((∃ e ∈ src, parsePrice e.2 = none) → loadCatalog src = []) ∧
    ((∀ e ∈ src, (parsePrice e.2).isSome = true) →
      loadCatalog src = src.map (fun e => (normalize e.1, (parsePrice e.2).getD 0))) := by
  constructor
  · intro h
    unfold loadCatalog
    rw [if_neg]
    intro hall
    obtain ⟨e, he, hp⟩ := h
    have hs := List.all_eq_true.mp hall e he
    rw [hp] at hs
    exact absurd hs (by simp)
  · intro h
    unfold loadCatalog
    rw [if_pos]
    exact List.all_eq_true.mpr h

/-- Claim C9 witness: the single-row source (salt, "abc") loads to the
empty catalog. -/
theorem C9_witness :
    loadCatalog [(("salt".data), ("abc".data))] = [] :=
  (C9_bad_row_empties_catalog [(("salt".data), ("abc".data))]).1
    ⟨(("salt".data), ("abc".data)), by simp, by decide⟩

/-- Claim C10, counterexample: a substring match need not change the raw
sequence. Against the catalog with the single zero-priced entry ab ↦ 0,
the raw item named "Ab" misses the nonzero exact test (the stored price is
0), the substring scan fires and overwrites the name with the title-cased
catalog name "Ab" — the very value it already had — so after the pass the
raw candidate sequence equals its pre-resolution value even though a
substring match occurred. -/
theorem C10_counterexample :
    lookupPrice [(("ab".data), (0 : Int))] (normalize ("Ab".data)) = 0 ∧
    firstFuzzy [(("ab".data), (0 : Int))] (normalize ("Ab".data))
      = some (("ab".data), (0 : Int)) ∧
    resolveInvoice [(("ab".data), (0 : Int))]
        [{ qty := some 1, item := some ("Ab".data), unit_price := none }]
      = some ({ lines := [{ qty := 1, item := ("Ab".data), line_total := 0 }], grandTotal := 0 },
              [{ qty := some 1, item := some ("Ab".data), unit_price := none }]) :=
  ⟨by decide, by decide, by decide⟩

/-- Claim C10 as amended: resolution mutates its raw input exactly on the
substring-fallback branch — there the row's name field is overwritten in
place with the title-cased catalog canonical name, while exact-matched and
unmatched rows keep their name field unchanged — and on success the pass
leaves the raw sequence equal to the row-wise mutation of the input; the
sequence therefore differs from its pre-resolution value exactly when some
substring-matched row's original name differs from the title-cased catalog
name that replaces it. -/
theorem C10_mutation_on_fuzzy_only (db : Catalog) (row : RawRow) :
    (lookupPrice db (normalize ((row.item).getD [])) ≠ 0 → mutatedRow db row = row) ∧
    (firstFuzzy db (normalize ((row.item).getD [])) = none → mutatedRow db row = row) ∧
    (lookupPrice db (normalize ((row.item).getD [])) = 0 →
      ∀ e, firstFuzzy db (normalize ((row.item).getD [])) = some e →
        mutatedRow db row = { row with item := some (title e.1) }) ∧
    ∀ rows out, resolveInvoice db rows = some out → out.2 = rows.map (mutatedRow db) := by
  refine ⟨?_, ?_, ?_, ?_⟩
  · intro hne
    simp [mutatedRow, resolveStep, hne]
  · intro hnone
    by_cases h0 : lookupPrice db (normalize ((row.item).getD [])) = 0
    · simp [mutatedRow, resolveStep, h0, hnone]
    · simp [mutatedRow, resolveStep, h0]
  · intro h0 e he
    simp [mutatedRow, resolveStep, h0, he]
  · intro rows out h
    unfold resolveInvoice at h
    cases hl : resolveList db rows with
    | none => rw [hl] at h; exact absurd h (by simp)
    | some q =>
        obtain ⟨cs, t, rs2⟩ := q
        rw [hl] at h
        obtain ⟨_, _, hmap, _⟩ := resolveList_spec db rows cs t rs2 hl
        simp only [Option.some.injEq] at h
        rw [← h]
        exact hmap

/-- Claim C10 witness: in the substring example the raw row's name field
is overwritten in place with "Indomie Supreme", so the post-resolution raw
sequence differs from its pre-resolution value. -/
theorem C10_witness :
    mutatedRow [(("indomie supreme".data), (11500 : Int))]
        { qty := some 1, item := some ("Indomie".data), unit_price := none }
      = { qty := some 1, item := some (title ("indomie supreme".data)), unit_price := none } :=
  ((C10_mutation_on_fuzzy_only [(("indomie supreme".data), (11500 : Int))]
    { qty := some 1, item := some ("Indomie".data), unit_price := none }).2.2.1
    (by decide) (("indomie supreme".data), (11500 : Int)) (by decide))

end SmartInvoice
